import Mathlib

/-!
Shallow embedding of `thriftpy/thrift.py` (the call-dispatch core of the
thriftpy RPC framework): payload schemas and instances, the client
dispatcher (`TClient`), the server dispatcher (`TProcessor`) and
`TApplicationException`, together with theorems settling the spec claims.

The wire codec and transport are external collaborators; messages and the
payload fields they transport are therefore modelled as explicit data and
the codec round-trip is assumed to transport the set fields unchanged
(the codec contract of the spec, out of scope here).
-/

namespace Thriftpy

/-- Wire-type codes from `TType` (only the ones the dispatch core uses). -/
def TType.STRUCT : Nat := 12

namespace TMessageType

/-- `TMessageType.CALL = 1`. -/
def CALL : Nat := 1

/-- `TMessageType.REPLY = 2`. -/
def REPLY : Nat := 2

/-- `TMessageType.EXCEPTION = 3`. -/
def EXCEPTION : Nat := 3

/-- `TMessageType.ONEWAY = 4`. -/
def ONEWAY : Nat := 4

end TMessageType

/-- A Python error object, abstracted to what the dispatch core inspects:
the ids of its concrete class and of every ancestor class (so that
`isinstance` is membership), plus a tag distinguishing instances. -/
structure ErrObj where
  classes : List Nat
  tag : Nat
deriving DecidableEq, Repr

/-- Python `isinstance(e, cls)`: `cls` is the class of `e` or an ancestor. -/
def isinstance (e : ErrObj) (cls : Nat) : Bool := e.classes.contains cls

/-- A field value carried in a payload: either a plain data value or an
error object (a declared exception stored in a result slot). -/
inductive FieldVal where
  | val : Nat → FieldVal
  | err : ErrObj → FieldVal
deriving DecidableEq, Repr

/-- One entry of a `thrift_spec` mapping: `(wire type, field name)` plus,
for declared-exception slots of a result schema, the exception class id
(the third component of the Python tuple). the success slot and request
fields carry `none` there. -/
structure Slot where
  ttype : Nat
  name : String
  cls : Option Nat
deriving DecidableEq, Repr

/-- A `thrift_spec`: finite mapping from field id to slot, kept as an
association list (Python dict items). -/
abbrev Spec := List (Nat × Slot)

/-- A payload instance's `__dict__`: insertion-ordered mapping from field
name to value, where `none` is Python `None` (absent field). -/
abbrev Dict := List (String × Option FieldVal)

/-- Python `sorted` on `thrift_spec.items()`: items ordered by ascending
field id (ids are unique within a schema, so the key decides). -/
def sortSpec (spec : Spec) : Spec :=
  List.insertionSort (fun a b => a.1 ≤ b.1) spec

/-- Field names of a schema in ascending-field-id order. -/
def sortedNames (spec : Spec) : List String :=
  (sortSpec spec).map (fun ks => ks.2.name)

/-- Lookup `result.thrift_spec[k]`. -/
def specLookup (spec : Spec) (k : Nat) : Option Slot :=
  (spec.find? (fun ks => ks.1 = k)).map (fun ks => ks.2)

/-- First-occurrence lookup in a string-keyed association list (Python
attribute/dict lookup; a key is present at most once in a well-formed
dict, so the first occurrence is the value). -/
def assocLookup {β : Type} (d : List (String × β)) (k : String) : Option β :=
  (d.find? (fun kv => kv.1 = k)).map (fun kv => kv.2)

/-- Python assignment `obj.k = v` / `d[k] = v`: replace the value in place
when the key exists, otherwise append the new key (dict insertion
order). -/
def assocSet {β : Type} (d : List (String × β)) (k : String) (v : β) :
    List (String × β) :=
  if d.any (fun kv => kv.1 = k) then
    d.map (fun kv => if kv.1 = k then (kv.1, v) else kv)
  else
    d ++ [(k, v)]

/-- Lookup in a `__dict__`. `some none` means the attribute exists and is
`None`; `none` means no such attribute. -/
def dictLookup (d : Dict) (k : String) : Option (Option FieldVal) :=
  assocLookup d k

/-- Python `hasattr(obj, k)` on a payload instance. -/
def hasAttr (d : Dict) (k : String) : Bool := (dictLookup d k).isSome

/-- Python `setattr(obj, k, v)` on a payload instance. -/
def setAttr (d : Dict) (k : String) (v : Option FieldVal) : Dict :=
  assocSet d k v

/-- Modelled from the spec: the metaclass-generated `__init__` of a payload
class (`init_func_generator` lives outside this repository's core file)
"default-initializes all fields to absent", creating the instance
attributes in schema order (ascending field id). -/
def initFields (spec : Spec) : Dict :=
  (sortSpec spec).map (fun ks => (ks.2.name, none))

/-- One field arriving from the wire during `read_struct`: set the named
attribute when the schema declares it, else the codec skips the field
(unknown wire fields are skipped, not fatal). Setting never adds keys
because a deserialized payload starts from `initFields`. -/
def setKnown (d : Dict) (k : String) (v : FieldVal) : Dict :=
  d.map (fun kv => if kv.1 = k then (kv.1, some v) else kv)

/-- `payload.read(iprot)`: populate a freshly constructed instance from the
sequence of `(field name, value)` pairs decoded off the wire. -/
def readFields (d : Dict) (wire : List (String × FieldVal)) : Dict :=
  wire.foldl (fun d kv => setKnown d kv.1 kv.2) d

/-- The value the wire leaves at a field name: the last wire entry for that
name, if any. -/
def finalVal : List (String × FieldVal) → String → Option FieldVal
  | [], _ => none
  | kv :: w, n =>
    match finalVal w n with
    | some v => some v
    | none => if kv.1 = n then some kv.2 else none

/-- A deserialized result payload: its schema plus its `__dict__`. -/
structure ResultObj where
  thrift_spec : Spec
  fields : Dict
deriving DecidableEq, Repr

/-- A fresh `api_result()` instance: every schema field present as an
attribute, value `None`. -/
def initResult (spec : Spec) : ResultObj :=
  ⟨spec, initFields spec⟩

/-- `result.read(iprot)` on a fresh result instance of the given schema. -/
def deserializeResult (spec : Spec) (wire : List (String × FieldVal)) : ResultObj :=
  ⟨spec, readFields (initFields spec) wire⟩

/-- Set one attribute on a result object (`setattr(result, name, v)`). -/
def ResultObj.set (r : ResultObj) (k : String) (v : Option FieldVal) : ResultObj :=
  ⟨r.thrift_spec, setAttr r.fields k v⟩

namespace TApplicationException

/-- Code `UNKNOWN = 0`. -/
def UNKNOWN : Nat := 0

/-- Code `UNKNOWN_METHOD = 1`. -/
def UNKNOWN_METHOD : Nat := 1

/-- Code `INVALID_MESSAGE_TYPE = 2`. -/
def INVALID_MESSAGE_TYPE : Nat := 2

/-- Code `WRONG_METHOD_NAME = 3`. -/
def WRONG_METHOD_NAME : Nat := 3

/-- Code `BAD_SEQUENCE_ID = 4`. -/
def BAD_SEQUENCE_ID : Nat := 4

/-- Code `MISSING_RESULT = 5`. -/
def MISSING_RESULT : Nat := 5

end TApplicationException

/-- `TApplicationException`: code plus optional message, exactly the two
fields of its own `thrift_spec` (`{1: message, 2: type}`). -/
structure TApplicationException where
  type : Nat
  message : Option String
deriving DecidableEq, Repr

/-- `TApplicationException(type)` with the default `message=None`. -/
def TApplicationException.mkType (t : Nat) : TApplicationException := ⟨t, none⟩

/-- `TApplicationException.__str__`: the message when truthy (set and
non-empty), else a default text derived from the code, with an explicit
fallback for unrecognized codes. -/
def TApplicationException.toStr (x : TApplicationException) : String :=
  if (match x.message with | some m => m ≠ "" | none => false : Bool) then
    x.message.getD ""
  else if x.type = TApplicationException.UNKNOWN_METHOD then "Unknown method"
  else if x.type = TApplicationException.INVALID_MESSAGE_TYPE then "Invalid message type"
  else if x.type = TApplicationException.WRONG_METHOD_NAME then "Wrong method name"
  else if x.type = TApplicationException.BAD_SEQUENCE_ID then "Bad sequence ID"
  else if x.type = TApplicationException.MISSING_RESULT then "Missing result"
  else "Default (unknown) TApplicationException"

/-! ## Client dispatcher: `TClient` -/

/-- The mutable state of a `TClient` instance that the dispatch logic
touches: the `_seqid` counter set to `0` in `__init__`. -/
structure TClientState where
  seqid : Nat
deriving DecidableEq, Repr

/-- `TClient.__init__` sets `self._seqid = 0`. -/
def TClient.init : TClientState := ⟨0⟩

/-- A message envelope written to the outbound stream:
`write_message_begin(name, mtype, seqid)`. -/
structure Envelope where
  name : String
  mtype : Nat
  seqid : Nat
deriving DecidableEq, Repr

/-- `TClient._send`: writes `(api, CALL, self._seqid)` and the args payload,
then flushes. `_seqid` is read but never modified, so the state comes back
unchanged. -/
def TClient.send (st : TClientState) (api : String) : Envelope × TClientState :=
  (⟨api, TMessageType.CALL, st.seqid⟩, st)

/-- Client state after `n` completed calls on one instance. -/
def TClient.stateAfter : Nat → TClientState
  | 0 => TClient.init
  | n + 1 => (TClient.send (TClient.stateAfter n) "m").2

/-- The sequence id carried by the envelope of call number `n`
(zero-based) on one client instance. -/
def TClient.seqidOfCall (n : Nat) : Nat :=
  (TClient.send (TClient.stateAfter n) "m").1.seqid

/-- Outcome of `TClient._recv`: a returned value (`none` for a void
return), a raised `TApplicationException` (wire exception or
MISSING_RESULT), or a raised declared-exception value from a result slot. -/
inductive RecvOutcome where
  | ret : Option FieldVal → RecvOutcome
  | raiseApp : TApplicationException → RecvOutcome
  | raiseSlot : FieldVal → RecvOutcome
deriving DecidableEq, Repr

/-- `TClient._recv`, after `read_message_begin` produced message type
`mtype`: on EXCEPTION it deserializes and raises a
`TApplicationException` (`wx`, transported unchanged by the codec);
otherwise it deserializes the result payload (`result`) and interprets it:
present success value returned; empty schema returns `None`; else the
first non-success attribute with a value is raised; else MISSING_RESULT
when a success attribute exists. -/
def recv (mtype : Nat) (wx : TApplicationException) (result : ResultObj) : RecvOutcome :=
  if mtype = TMessageType.EXCEPTION then
    .raiseApp wx
  else
    match (dictLookup result.fields "success").bind (fun v => v) with
    | some v => .ret (some v)
    | none =>
      if result.thrift_spec.length = 0 then .ret none
      else
        match result.fields.find? (fun kv => kv.1 ≠ "success" ∧ kv.2 ≠ none) with
        | some kv => .raiseSlot (kv.2.getD (.val 0))
        | none =>
          if hasAttr result.fields "success" then
            .raiseApp (TApplicationException.mkType TApplicationException.MISSING_RESULT)
          else .ret none

/-! ## Argument binding: `args2kwargs` and `TClient._req` -/

/-- `args2kwargs(thrift_spec, *args)`: pair the schema's field names in
ascending-field-id order with the positional arguments
(`dict(zip(arg_names, args))`; `zip` silently drops whichever side is
longer). -/
def args2kwargs (spec : Spec) (args : List FieldVal) : List (String × FieldVal) :=
  (sortedNames spec).zip args

/-- Python `d[k] = v` on a kwargs dict: replace in place or append. -/
def kwSet (d : List (String × FieldVal)) (k : String) (v : FieldVal) :
    List (String × FieldVal) :=
  assocSet d k v

/-- Python `kwargs.update(u)`. -/
def kwUpdate (d u : List (String × FieldVal)) : List (String × FieldVal) :=
  u.foldl (fun d kv => kwSet d kv.1 kv.2) d

/-- First-occurrence lookup in a kwargs dict. -/
def kwLookup (d : List (String × FieldVal)) (k : String) : Option FieldVal :=
  assocLookup d k

/-- The merged keyword arguments `TClient._req` passes to `_send`:
`kwargs.update(args2kwargs(spec, *args))`, so positional bindings are
written over named ones. -/
def reqKwargs (spec : Spec) (args : List FieldVal)
    (kwargs : List (String × FieldVal)) : List (String × FieldVal) :=
  kwUpdate kwargs (args2kwargs spec args)

/-- The args payload `_send` builds: a fresh `api_args()` instance, then
`setattr(args, k, v)` for each merged keyword argument in order. -/
def sendArgsDict (spec : Spec) (kw : List (String × FieldVal)) : Dict :=
  kw.foldl (fun d kv => setAttr d kv.1 (some kv.2)) (initFields spec)

/-- Modelled from the spec: `write_struct` (the external codec) serializes
only the fields currently set on the instance, using the schema for ids
and wire types; unset fields are omitted, attributes outside the schema
are not written. -/
def writeStruct (spec : Spec) (d : Dict) : List (String × FieldVal) :=
  (sortSpec spec).filterMap (fun ks =>
    match dictLookup d ks.2.name with
    | some (some v) => some (ks.2.name, v)
    | some none => none
    | none => none)

/-- The name-value pairs the CALL message's payload carries for a call
with the given positional and named arguments. -/
def callWirePairs (spec : Spec) (args : List FieldVal)
    (kwargs : List (String × FieldVal)) : List (String × FieldVal) :=
  writeStruct spec (sendArgsDict spec (reqKwargs spec args kwargs))

/-! ## Server dispatcher: `TProcessor` -/

/-- Does the error match a declared-exception slot, i.e.
`isinstance(e, exc_cls)` for the slot's exception class? The success slot
carries no class and never reaches this test on well-formed schemas (it
occupies the smallest field id and `handle_exception` skips the first
sorted key). -/
def slotMatches (e : ErrObj) (s : Slot) : Bool :=
  match s.cls with
  | some c => isinstance e c
  | none => false

/-- The test `handle_exception` applies at sorted key `k`:
`isinstance(e, result.thrift_spec[k][2])`. -/
def matchesAt (spec : Spec) (k : Nat) (e : ErrObj) : Bool :=
  match specLookup spec k with
  | some s => slotMatches e s
  | none => false

/-- `TProcessor.handle_exception(e, result)`: re-raise (`none`) when the
spec has exactly one entry; otherwise walk the sorted field ids with the
first one dropped (assumed to be the success slot) and store the error
into the first slot whose exception class matches (`some` of the updated
result); re-raise when no slot matches. -/
def handle_exception (e : ErrObj) (result : ResultObj) : Option ResultObj :=
  if result.thrift_spec.length = 1 then none
  else
    match ((List.insertionSort (fun a b => a ≤ b)
        (result.thrift_spec.map Prod.fst)).drop 1).find?
        (fun k => matchesAt result.thrift_spec k e) with
    | some k =>
      match specLookup result.thrift_spec k with
      | some s => some (result.set s.name (some (.err e)))
      | none => none
    | none => none

/-- A service description: its method-name set and, per method, the
request and response schemas (compiler-produced, read-only). -/
structure Service where
  thrift_services : List String
  argSpec : String → Spec
  resultSpec : String → Spec

/-- A handler: one callable per method, taking the decoded argument dict
and returning a value (possibly `none`) or raising an error. -/
abbrev Handler := String → Dict → Except ErrObj (Option FieldVal)

/-- Reads `TProcessor.process_in` performs on `iprot` after
`read_message_begin`. -/
inductive ProtoOp where
  | skip : Nat → ProtoOp
  | readStruct : ProtoOp
  | readMessageEnd : ProtoOp
deriving DecidableEq, Repr

/-- What `process_in` hands to `process` in its third and fourth
components: an unknown-method application exception with `call = None`,
or a fresh result object together with the bound deferred handler
invocation. -/
inductive ProcInRes where
  | unknownMethod : TApplicationException → ProcInRes
  | dispatch : ResultObj → Dict → ProcInRes
deriving DecidableEq, Repr

/-- Return value of `process_in`: the echoed method name and sequence id,
the result slot, and the reads performed on the input protocol. -/
structure ProcIn where
  api : String
  seqid : Nat
  res : ProcInRes
  ops : List ProtoOp
deriving DecidableEq, Repr

/-- `TProcessor.process_in`: read the envelope; for an unknown method name
skip the remaining struct, consume message-end and produce an
UNKNOWN_METHOD application exception with no bound handler call;
otherwise deserialize the args payload, consume message-end, and bind the
handler invocation on the decoded arguments next to a fresh result
instance. `argWire` is the serialized args struct sitting on the wire. -/
def process_in (svc : Service) (api : String) (seqid : Nat)
    (argWire : List (String × FieldVal)) : ProcIn :=
  if api ∈ svc.thrift_services then
    { api := api, seqid := seqid
      res := .dispatch (initResult (svc.resultSpec api))
        (readFields (initFields (svc.argSpec api)) argWire)
      ops := [.readStruct, .readMessageEnd] }
  else
    { api := api, seqid := seqid
      res := .unknownMethod (TApplicationException.mkType
        TApplicationException.UNKNOWN_METHOD)
      ops := [.skip TType.STRUCT, .readMessageEnd] }

/-- What `TProcessor.process` does with one inbound message: write an
EXCEPTION message (`send_exception`), write a REPLY message
(`send_result`), or let the handler's error propagate out of `process`
with nothing written for this message. -/
inductive Outcome where
  | exception : String → Nat → TApplicationException → Outcome
  | reply : String → Nat → ResultObj → Outcome
  | propagate : ErrObj → Outcome
deriving DecidableEq, Repr

/-- Number of messages an outcome writes to the outbound stream
(`send_exception` and `send_result` each write exactly one; a propagated
error writes none). -/
def Outcome.writeCount : Outcome → Nat
  | .exception _ _ _ => 1
  | .reply _ _ _ => 1
  | .propagate _ => 0

/-- `TProcessor.process`: unknown methods turn into an EXCEPTION message
with the echoed seqid; otherwise the handler runs, its return value is
stored into `result.success`, a raised error goes through
`handle_exception` (stored and replied, or re-raised with nothing
written), and the result is sent as a REPLY with the echoed seqid. -/
def process (svc : Service) (handler : Handler) (api : String) (seqid : Nat)
    (argWire : List (String × FieldVal)) : Outcome :=
  let pin := process_in svc api seqid argWire
  match pin.res with
  | .unknownMethod x => .exception pin.api pin.seqid x
  | .dispatch result args =>
    match handler api args with
    | .ok v => .reply pin.api pin.seqid (result.set "success" v)
    | .error e =>
      match handle_exception e result with
      | some r => .reply pin.api pin.seqid r
      | none => .propagate e

/-! ## `TPayload.__eq__` and `__ne__` -/

/-- A payload instance as Python's comparison machinery sees it: its
concrete class id, the ids of that class and all its ancestor classes,
and its `__dict__`. -/
structure TPayloadObj where
  cls : Nat
  ancestors : List Nat
  dict : Dict
deriving DecidableEq, Repr

/-- `isinstance(other, self.__class__)` for payload instances. -/
def pyIsinstance (other : TPayloadObj) (cls : Nat) : Bool :=
  other.ancestors.contains cls

/-- Is `type(sub)` a (non-strict) subclass of `type(sup)`. -/
def pySubclass (sub sup : TPayloadObj) : Bool :=
  sub.ancestors.contains sup.cls

/-- Python dict equality for `self.__dict__ == other.__dict__`: same key
set and equal values, regardless of insertion order. -/
def dictEq (d1 d2 : Dict) : Bool :=
  (d1.all (fun kv => dictLookup d2 kv.1 = dictLookup d1 kv.1)) &&
  (d2.all (fun kv => dictLookup d1 kv.1 = dictLookup d2 kv.1))

/-- The body of `TPayload.__eq__(self, other)`:
`isinstance(other, self.__class__) and self.__dict__ == other.__dict__`. -/
def eqMethod (self other : TPayloadObj) : Bool :=
  pyIsinstance other self.cls && dictEq self.dict other.dict

/-- The Python operator `a == b` on two payload instances: the
interpreter's rich-comparison dispatch gives the reflected method
priority when `type(b)` is a proper subclass of `type(a)`, and the method
always returns a real boolean (never NotImplemented), so the first method
invoked decides. -/
def pyEq (a b : TPayloadObj) : Bool :=
  if a.cls ≠ b.cls ∧ pySubclass b a then eqMethod b a else eqMethod a b

/-- The body of `TPayload.__ne__(self, other)` is `self != other`, which
re-enters the `!=` operator on the same pair; the operator dispatches
straight back into this method (reflected first when `type(other)` is a
proper subclass). `neFuel` runs that recursion with a bounded call depth:
`none` means the depth was exhausted without producing an answer. -/
def neFuel : Nat → TPayloadObj → TPayloadObj → Option Bool
  | 0, _, _ => none
  | n + 1, self, other =>
    if self.cls ≠ other.cls ∧ pySubclass other self then neFuel n other self
    else neFuel n self other

/-! ## Helper lemmas on association lists and deserialization -/

instance : IsTotal (Nat × Slot) (fun a b => a.1 ≤ b.1) :=
  ⟨fun a b => Nat.le_total a.1 b.1⟩

instance : IsTrans (Nat × Slot) (fun a b => a.1 ≤ b.1) :=
  ⟨fun _ _ _ hab hbc => Nat.le_trans hab hbc⟩

theorem assocLookup_cons {β : Type} (x : String × β) (d : List (String × β))
    (n : String) :
    assocLookup (x :: d) n = if x.1 = n then some x.2 else assocLookup d n := by
  by_cases h : x.1 = n
  · simp [assocLookup, List.find?_cons_of_pos, h]
  · simp [assocLookup, List.find?_cons_of_neg, h]

theorem assocAny_eq_isSome {β : Type} (d : List (String × β)) (k : String) :
    d.any (fun kv => kv.1 = k) = (assocLookup d k).isSome := by
  induction d with
  | nil => rfl
  | cons x d ih =>
    by_cases h : x.1 = k <;> simp [assocLookup_cons, h, ih]

theorem assocLookup_map_set {β : Type} (d : List (String × β)) (k n : String)
    (v : β) :
    assocLookup (d.map (fun kv => if kv.1 = k then (kv.1, v) else kv)) n =
      if n = k then (assocLookup d k).map (fun _ => v) else assocLookup d n := by
  induction d with
  | nil => by_cases h : n = k <;> simp [assocLookup, h]
  | cons x d ih =>
    simp only [List.map_cons]
    by_cases hx : x.1 = k <;>
      [rw [if_pos hx]; rw [if_neg hx]] <;>
      rw [assocLookup_cons, assocLookup_cons, assocLookup_cons, ih] <;>
      by_cases hn : n = k <;> by_cases hxn : x.1 = n <;>
      simp [hx, hn, hxn] <;> simp_all

theorem assocLookup_append_single {β : Type} (d : List (String × β))
    (k n : String) (v : β) :
    assocLookup (d ++ [(k, v)]) n =
      match assocLookup d n with
      | some w => some w
      | none => if k = n then some v else none := by
  induction d with
  | nil => simp [assocLookup_cons, assocLookup]
  | cons x d ih =>
    by_cases h : x.1 = n <;> simp [assocLookup_cons, h, ih]

theorem assocLookup_set {β : Type} (d : List (String × β)) (k n : String)
    (v : β) :
    assocLookup (assocSet d k v) n = if n = k then some v else assocLookup d n := by
  unfold assocSet
  rw [assocAny_eq_isSome]
  cases hk : assocLookup d k with
  | some w =>
    rw [if_pos (by simp [hk])]
    rw [assocLookup_map_set]
    by_cases hn : n = k <;> simp [hn, hk]
  | none =>
    rw [if_neg (by simp [hk])]
    rw [assocLookup_append_single]
    by_cases hn : n = k
    · subst hn; simp [hk]
    · have hkn : ¬ k = n := fun h => hn h.symm
      rw [if_neg hn]
      cases hd : assocLookup d n <;> simp [hd, hkn]

theorem assocSet_keys {β : Type} (d : List (String × β)) (k : String) (v : β)
    (h : (assocLookup d k).isSome) :
    (assocSet d k v).map Prod.fst = d.map Prod.fst := by
  unfold assocSet
  rw [assocAny_eq_isSome, if_pos h, List.map_map]
  apply List.map_congr_left
  intro kv _
  by_cases hk : kv.1 = k <;> simp [hk]

theorem assocSet_nodup {β : Type} (d : List (String × β)) (k : String) (v : β)
    (h : ((d.map Prod.fst)).Nodup) : ((assocSet d k v).map Prod.fst).Nodup := by
  by_cases hk : (assocLookup d k).isSome
  · rw [assocSet_keys d k v hk]; exact h
  · unfold assocSet
    rw [assocAny_eq_isSome]
    simp only [Bool.not_eq_true, Option.not_isSome, Option.isNone_iff_eq_none] at hk
    simp only [hk]
    simp only [Option.isSome_none, Bool.false_eq_true, if_neg, not_false_iff]
    rw [List.map_append]
    apply List.Nodup.append h (by simp)
    intro a ha hb
    simp only [List.map_cons, List.map_nil, List.mem_singleton] at hb
    subst hb
    rcases List.mem_map.mp ha with ⟨kv, hkv, hfst⟩
    have : assocLookup d a ≠ none := by
      rw [assocLookup]
      intro hnone
      rcases List.find?_eq_none.mp (Option.map_eq_none.mp hnone) kv hkv with h2
      simp [hfst] at h2
    exact this hk

theorem readFields_map (w : List (String × FieldVal)) :
    ∀ d : Dict, readFields d w =
      d.map (fun kv => (kv.1, (finalVal w kv.1).elim kv.2 some)) := by
  induction w with
  | nil =>
    intro d
    show d = _
    have : (fun kv : String × Option FieldVal =>
        (kv.1, (finalVal [] kv.1).elim kv.2 some)) =
        (fun kv : String × Option FieldVal => kv) := by
      funext kv; rfl
    rw [this, List.map_id']
  | cons x w ih =>
    intro d
    show readFields (setKnown d x.1 x.2) w = _
    rw [ih]
    unfold setKnown
    rw [List.map_map]
    congr 1
    funext kv
    by_cases hk : kv.1 = x.1
    · simp only [Function.comp, if_pos hk]
      show (kv.1, (finalVal w kv.1).elim (some x.2) some) = _
      cases hv : finalVal w kv.1 <;>
        simp [finalVal, hv, hk.symm]
    · simp only [Function.comp, if_neg hk]
      show (kv.1, (finalVal w kv.1).elim kv.2 some) = _
      have hxk : ¬ x.1 = kv.1 := fun h => hk h.symm
      cases hv : finalVal w kv.1 <;>
        simp [finalVal, hv, hxk]

theorem deserializeResult_fields (spec : Spec) (wire : List (String × FieldVal)) :
    (deserializeResult spec wire).fields =
      (sortSpec spec).map (fun ks => (ks.2.name, finalVal wire ks.2.name)) := by
  show readFields (initFields spec) wire = _
  rw [readFields_map]
  unfold initFields
  rw [List.map_map]
  congr 1
  funext ks
  show (ks.2.name, (finalVal wire ks.2.name).elim none some) = _
  cases hv : finalVal wire ks.2.name <;> simp [hv]

theorem find?_min_key (p : Nat × Slot → Bool) :
    ∀ (l : Spec), l.Sorted (fun a b => a.1 ≤ b.1) → ((l.map Prod.fst)).Nodup →
    ∀ (k : Nat) (s : Slot), (k, s) ∈ l → p (k, s) = true →
    (∀ x ∈ l, p x = true → k ≤ x.1) → l.find? p = some (k, s) := by
  intro l
  induction l with
  | nil => intro _ _ k s hmem; exact absurd hmem (List.not_mem_nil _)
  | cons x l ih =>
    intro hs hnd k s hmem hp hmin
    by_cases hpx : p x = true
    · rw [List.find?_cons_of_pos _ hpx]
      rcases List.mem_cons.mp hmem with heq | htail
      · rw [heq]
      · exfalso
        have hk_le : k ≤ x.1 := hmin x (List.mem_cons_self x l) hpx
        have hx_le : x.1 ≤ k :=
          (List.rel_of_sorted_cons hs) (k, s) htail
        have hkx : x.1 = k := Nat.le_antisymm hx_le hk_le
        have : k ∈ l.map Prod.fst :=
          List.mem_map.mpr ⟨(k, s), htail, rfl⟩
        rw [List.map_cons] at hnd
        exact (List.nodup_cons.mp hnd).1 (hkx ▸ this)
    · rw [List.find?_cons_of_neg _ hpx]
      have htail : (k, s) ∈ l := by
        rcases List.mem_cons.mp hmem with heq | htail
        · exact absurd (heq ▸ hp) hpx
        · exact htail
      exact ih hs.of_cons ((List.map_cons _ _ _ ▸ hnd).of_cons) k s htail hp
        (fun y hy hpy => hmin y (List.mem_cons_of_mem x hy) hpy)

theorem sortSpec_perm (spec : Spec) : (sortSpec spec).Perm spec :=
  List.perm_insertionSort _ spec

theorem sortSpec_sorted (spec : Spec) :
    (sortSpec spec).Sorted (fun a b => a.1 ≤ b.1) :=
  List.sorted_insertionSort _ spec

theorem sortSpec_ids_nodup (spec : Spec) (h : (spec.map Prod.fst).Nodup) :
    ((sortSpec spec).map Prod.fst).Nodup :=
  (((sortSpec_perm spec).map Prod.fst).nodup_iff).mpr h

theorem lookup_foldl_set {β : Type} (g : FieldVal → β) :
    ∀ (u : List (String × FieldVal)), ((u.map Prod.fst)).Nodup →
    ∀ (d : List (String × β)) (n : String),
      assocLookup (u.foldl (fun d kv => assocSet d kv.1 (g kv.2)) d) n =
        match assocLookup u n with
        | some v => some (g v)
        | none => assocLookup d n := by
  intro u
  induction u with
  | nil => intro _ d n; simp [assocLookup]
  | cons x u ih =>
    intro hnd d n
    rw [List.foldl_cons]
    rw [ih ((List.map_cons _ _ _ ▸ hnd).of_cons)]
    rw [assocLookup_cons, assocLookup_set]
    by_cases hn : n = x.1
    · have hxn : x.1 = n := hn.symm
      rw [if_pos hxn, if_pos hn]
      have hnotin : assocLookup u n = none := by
        rw [assocLookup, Option.map_eq_none']
        rw [List.find?_eq_none]
        intro kv hkv hfst
        rw [List.map_cons] at hnd
        have hmem : kv.1 ∈ u.map Prod.fst := List.mem_map.mpr ⟨kv, hkv, rfl⟩
        have heq : kv.1 = n := by simpa using hfst
        have hxin : x.1 ∈ u.map Prod.fst := by rw [← hn, ← heq]; exact hmem
        exact (List.nodup_cons.mp hnd).1 hxin
      rw [hnotin]
    · have hxn : ¬ x.1 = n := fun h => hn h.symm
      rw [if_neg hxn, if_neg hn]

theorem kwUpdate_lookup (u : List (String × FieldVal))
    (hnd : ((u.map Prod.fst)).Nodup) (d : List (String × FieldVal)) (n : String) :
    kwLookup (kwUpdate d u) n =
      match kwLookup u n with
      | some v => some v
      | none => kwLookup d n := by
  show assocLookup (u.foldl (fun d kv => assocSet d kv.1 kv.2) d) n = _
  exact lookup_foldl_set (fun v => v) u hnd d n

theorem sendArgsDict_lookup (spec : Spec) (kw : List (String × FieldVal))
    (hnd : ((kw.map Prod.fst)).Nodup) (n : String) :
    dictLookup (sendArgsDict spec kw) n =
      match kwLookup kw n with
      | some v => some (some v)
      | none => dictLookup (initFields spec) n := by
  show assocLookup (kw.foldl (fun d kv => assocSet d kv.1 (some kv.2))
    (initFields spec)) n = _
  exact lookup_foldl_set some kw hnd (initFields spec) n

theorem initFields_lookup (spec : Spec) (n : String) :
    dictLookup (initFields spec) n =
      ((sortSpec spec).find? (fun ks => ks.2.name = n)).map (fun _ => none) := by
  show assocLookup ((sortSpec spec).map (fun ks => (ks.2.name, none))) n = _
  rw [assocLookup, List.find?_map]
  have hpred : (List.find? ((fun kv : String × Option FieldVal =>
      decide (kv.1 = n)) ∘ fun ks : Nat × Slot => (ks.2.name, none))
      (sortSpec spec)) =
      List.find? (fun ks : Nat × Slot => decide (ks.2.name = n))
        (sortSpec spec) := rfl
  rw [hpred]
  cases List.find? (fun ks : Nat × Slot => decide (ks.2.name = n))
    (sortSpec spec) <;> rfl

/-- Does the response schema declare a success slot (an entry named
"success")? -/
def declaresSuccess (spec : Spec) : Bool :=
  spec.any (fun ks => ks.2.name = "success")

theorem entry_lookup (l : Spec) (w : List (String × FieldVal)) (n : String) :
    assocLookup (l.map (fun ks => (ks.2.name, finalVal w ks.2.name))) n =
      (l.find? (fun ks => ks.2.name = n)).map
        (fun ks => finalVal w ks.2.name) := by
  rw [assocLookup, List.find?_map]
  have hpred : List.find? ((fun kv : String × Option FieldVal =>
      decide (kv.1 = n)) ∘ fun ks : Nat × Slot =>
        (ks.2.name, finalVal w ks.2.name)) l =
      List.find? (fun ks : Nat × Slot => decide (ks.2.name = n)) l := rfl
  rw [hpred]
  cases List.find? (fun ks : Nat × Slot => decide (ks.2.name = n)) l <;> rfl

theorem entry_scan (l : Spec) (w : List (String × FieldVal)) :
    (l.map (fun ks => (ks.2.name, finalVal w ks.2.name))).find?
        (fun kv => kv.1 ≠ "success" ∧ kv.2 ≠ none) =
      (l.find? (fun ks =>
          ks.2.name ≠ "success" ∧ finalVal w ks.2.name ≠ none)).map
        (fun ks => (ks.2.name, finalVal w ks.2.name)) := by
  rw [List.find?_map]
  have hpred : List.find? ((fun kv : String × Option FieldVal =>
      decide (kv.1 ≠ "success" ∧ kv.2 ≠ none)) ∘ fun ks : Nat × Slot =>
        (ks.2.name, finalVal w ks.2.name)) l =
      List.find? (fun ks : Nat × Slot =>
        decide (ks.2.name ≠ "success" ∧ finalVal w ks.2.name ≠ none)) l := rfl
  rw [hpred]

theorem declaresSuccess_eq_isSome (spec : Spec) :
    declaresSuccess spec =
      ((sortSpec spec).find? (fun ks => ks.2.name = "success")).isSome := by
  unfold declaresSuccess
  rw [Bool.eq_iff_iff, List.any_eq_true, List.find?_isSome]
  constructor
  · rintro ⟨ks, hks, hp⟩
    exact ⟨ks, (sortSpec_perm spec).mem_iff.mpr hks, hp⟩
  · rintro ⟨ks, hks, hp⟩
    exact ⟨ks, (sortSpec_perm spec).mem_iff.mp hks, hp⟩

theorem scan_none_iff (spec : Spec) (w : List (String × FieldVal)) :
    ((sortSpec spec).find? (fun ks =>
        ks.2.name ≠ "success" ∧ finalVal w ks.2.name ≠ none) = none) ↔
      (∀ ks ∈ spec, ks.2.name ≠ "success" → finalVal w ks.2.name = none) := by
  rw [List.find?_eq_none]
  constructor
  · intro h ks hm hname
    by_contra hne
    exact h ks ((sortSpec_perm spec).mem_iff.mpr hm)
      (by simp [hname, hne])
  · intro h ks hm
    simp only [ne_eq, decide_eq_true_eq, not_and, not_not]
    intro hname
    exact h ks ((sortSpec_perm spec).mem_iff.mp hm) hname

/-! ## Concrete fixtures for witnesses and counterexamples -/

/-- An error object of class DivByZero (id 21), subclass of TException
(id 20). -/
def dbzErr : ErrObj := ⟨[21, 20], 0⟩

/-- An error object of a class (id 30) declared in no response schema. -/
def plainErr : ErrObj := ⟨[30], 1⟩

/-- Result schema of a void method with a single declared exception:
only the exception slot at field id 1, no success slot. -/
def divSpec : Spec := [(1, ⟨12, "e", some 21⟩)]

/-- Result schema of a void method with two declared exceptions. -/
def div2Spec : Spec := [(1, ⟨12, "e1", some 21⟩), (2, ⟨12, "e2", some 22⟩)]

/-- Result schema of a non-void method: success at field id 0 plus two
declared exception slots, both of class 21. -/
def addResultSpec : Spec :=
  [(0, ⟨8, "success", none⟩), (1, ⟨12, "e1", some 21⟩), (2, ⟨12, "e2", some 21⟩)]

/-- Request schema with two fields. -/
def addArgSpec : Spec := [(1, ⟨8, "a", none⟩), (2, ⟨8, "b", none⟩)]

/-- A small service with one non-void and one void-with-throws method. -/
def calcService : Service :=
  ⟨["add", "div"], fun _ => addArgSpec,
   fun api => if api = "div" then divSpec else addResultSpec⟩

/-- A handler whose every method raises a DivByZero error. -/
def divHandler : Handler := fun _ _ => .error dbzErr

/-- A handler whose every method raises an undeclared error. -/
def plainHandler : Handler := fun _ _ => .error plainErr

/-- A payload instance of a base class (id 1). -/
def basePayload : TPayloadObj := ⟨1, [1], [("x", some (.val 1))]⟩

/-- A payload instance of a subclass (id 2) of the base class, with the
same field values. -/
def subPayload : TPayloadObj := ⟨2, [2, 1], [("x", some (.val 1))]⟩

/-! ## Claim C2: client sequence ids -/

/-- C2 counterexample: the first and the second CALL minted by one client
instance both carry sequence id 0, so the id does not increment by 1 per
call, the ids are not monotonically increasing, and they repeat. -/
theorem c2_seqid_repeats :
    TClient.seqidOfCall 0 = 0 ∧ TClient.seqidOfCall 1 = 0 ∧
      ¬ TClient.seqidOfCall 0 < TClient.seqidOfCall 1 := by
  decide

/-- C2 (amended): the outgoing sequence id starts at 0 and is never
incremented — `_send` reads `_seqid` but no code path modifies it — so
every CALL message written by one client instance carries sequence id 0. -/
theorem c2_seqid_always_zero :
    ∀ n : Nat, TClient.seqidOfCall n = 0 ∧ TClient.stateAfter n = TClient.init := by
  intro n
  induction n with
  | zero => exact ⟨rfl, rfl⟩
  | succ n ih =>
    have h2 : TClient.stateAfter (n + 1) = TClient.init := by
      show (TClient.send (TClient.stateAfter n) "m").2 = TClient.init
      rw [ih.2]; rfl
    constructor
    · show (TClient.send (TClient.stateAfter (n + 1)) "m").1.seqid = 0
      rw [h2]; rfl
    · exact h2

/-! ## Claim C10: `__ne__` never terminates -/

/-- C10 (code bug): the body of `TPayload.__ne__(self, other)` is
`return self != other`, which re-enters the `!=` operator on the same
pair of objects; at every call depth the recursion has still produced no
boolean, so `a != b` never returns the negation of `a == b` (in Python
it exhausts the stack and raises RecursionError). -/
theorem c10_ne_diverges :
    ∀ (n : Nat) (a b : TPayloadObj), neFuel n a b = none := by
  intro n
  induction n with
  | zero => intro a b; rfl
  | succ n ih =>
    intro a b
    show (if a.cls ≠ b.cls ∧ pySubclass b a then neFuel n b a
      else neFuel n a b) = none
    split
    · exact ih b a
    · exact ih a b

/-! ## Claim C1: declared-exception matching on the server -/

/-- C1 (code bug): take a void method whose response schema contains only
exception slots. With a single declared slot (field id 1) the
`len(result.thrift_spec) == 1` guard misreads the schema as "no throws"
and re-raises a perfectly matching error; with two declared slots the
sorted-keys `[1:]` slice skips the first exception slot. Either way the
matching error is not stored and `process` propagates it instead of
writing a REPLY, contrary to the claim (and to the code's own comment
"raise if api don't have throws"). -/
theorem c1_void_throws_bug :
    slotMatches dbzErr ⟨12, "e", some 21⟩ = true ∧
    handle_exception dbzErr (initResult divSpec) = none ∧
    process calcService divHandler "div" 7 [] = .propagate dbzErr ∧
    slotMatches dbzErr ⟨12, "e1", some 21⟩ = true ∧
    handle_exception dbzErr (initResult div2Spec) = none := by
  decide

/-! ## Claim C4: unknown method -/

/-- C4: for every inbound CALL whose method name is not in the service's
method set, `process_in` skips the remaining struct bytes and consumes
the message end, binds no handler call, and `process` writes an
EXCEPTION message echoing the sequence id whose payload is an application
exception of code 1 (UNKNOWN_METHOD, message unset); a client receiving
that EXCEPTION raises the exception, whose derived text is
"Unknown method". -/
theorem c4_unknown_method (svc : Service) (handler : Handler) (api : String)
    (seqid : Nat) (argWire : List (String × FieldVal)) (r : ResultObj)
    (h : api ∉ svc.thrift_services) :
    process_in svc api seqid argWire =
      ⟨api, seqid,
        .unknownMethod (TApplicationException.mkType
          TApplicationException.UNKNOWN_METHOD),
        [.skip TType.STRUCT, .readMessageEnd]⟩ ∧
    process svc handler api seqid argWire =
      .exception api seqid (TApplicationException.mkType
        TApplicationException.UNKNOWN_METHOD) ∧
    (TApplicationException.mkType TApplicationException.UNKNOWN_METHOD).type = 1 ∧
    recv TMessageType.EXCEPTION
        (TApplicationException.mkType TApplicationException.UNKNOWN_METHOD) r =
      .raiseApp (TApplicationException.mkType
        TApplicationException.UNKNOWN_METHOD) ∧
    (TApplicationException.mkType
      TApplicationException.UNKNOWN_METHOD).toStr = "Unknown method" := by
  have hpin : process_in svc api seqid argWire =
      ⟨api, seqid,
        .unknownMethod (TApplicationException.mkType
          TApplicationException.UNKNOWN_METHOD),
        [.skip TType.STRUCT, .readMessageEnd]⟩ := by
    unfold process_in
    rw [if_neg h]
  refine ⟨hpin, ?_, rfl, ?_, rfl⟩
  · simp only [process, hpin]
  · unfold recv
    rw [if_pos rfl]

/-- Witness for C4 at a concrete service and method name. -/
theorem c4_unknown_method_witness :
    ("unknownOp" ∉ calcService.thrift_services) ∧
    process calcService divHandler "unknownOp" 9 [] =
      .exception "unknownOp" 9 (TApplicationException.mkType
        TApplicationException.UNKNOWN_METHOD) :=
  ⟨by decide,
   (c4_unknown_method calcService divHandler "unknownOp" 9 [] (initResult [])
     (by decide)).2.1⟩

/-! ## Claim C6: message types other than REPLY and EXCEPTION -/

/-- C6 counterexample: a reply envelope carrying message type CALL (1) —
neither REPLY nor EXCEPTION — does not fail as a protocol error: `_recv`
only special-cases EXCEPTION, so the message is interpreted exactly like
a REPLY and the success value is returned. -/
theorem c6_mtype_not_checked :
    recv TMessageType.CALL ⟨0, none⟩
        (deserializeResult addResultSpec [("success", .val 5)]) =
      .ret (some (.val 5)) ∧
    recv TMessageType.CALL ⟨0, none⟩
        (deserializeResult addResultSpec [("success", .val 5)]) =
      recv TMessageType.REPLY ⟨0, none⟩
        (deserializeResult addResultSpec [("success", .val 5)]) := by
  decide

/-- C6 (amended): `_recv` treats every message type other than EXCEPTION
identically to REPLY; no INVALID_MESSAGE_TYPE (or any other protocol
error) is raised for unexpected message types. -/
theorem c6_recv_mtype (mtype : Nat) (wx : TApplicationException)
    (r : ResultObj) (h : mtype ≠ TMessageType.EXCEPTION) :
    recv mtype wx r = recv TMessageType.REPLY wx r := by
  unfold recv
  rw [if_neg h,
    if_neg (show ¬ TMessageType.REPLY = TMessageType.EXCEPTION by decide)]

/-- Witness for the amended C6 at message type CALL. -/
theorem c6_recv_mtype_witness :
    (TMessageType.CALL ≠ TMessageType.EXCEPTION) ∧
    recv TMessageType.CALL ⟨0, none⟩ (initResult []) =
      recv TMessageType.REPLY ⟨0, none⟩ (initResult []) :=
  ⟨by decide, c6_recv_mtype TMessageType.CALL ⟨0, none⟩ (initResult [])
    (by decide)⟩

/-! ## Claim C7: undeclared handler faults propagate -/

theorem matchesAt_false (spec : Spec) (e : ErrObj)
    (h : ∀ ks ∈ spec, slotMatches e ks.2 = false) (k : Nat) :
    matchesAt spec k e = false := by
  unfold matchesAt specLookup
  cases hf : spec.find? (fun ks => ks.1 = k) with
  | none => rfl
  | some ks =>
    show slotMatches e ks.2 = false
    exact h ks (List.mem_of_find?_eq_some hf)

theorem handle_exception_none (e : ErrObj) (r : ResultObj)
    (h : ∀ ks ∈ r.thrift_spec, slotMatches e ks.2 = false) :
    handle_exception e r = none := by
  unfold handle_exception
  by_cases hlen : r.thrift_spec.length = 1
  · rw [if_pos hlen]
  · rw [if_neg hlen]
    have hfind : ((List.insertionSort (fun a b => a ≤ b)
        (r.thrift_spec.map Prod.fst)).drop 1).find?
        (fun k => matchesAt r.thrift_spec k e) = none :=
      List.find?_eq_none.mpr (fun k _ => by
        simp [matchesAt_false r.thrift_spec e h k])
    rw [hfind]

/-- C7: when the handler's error matches no declared-exception slot of
the method's response schema (in particular when the schema declares
none), `handle_exception` re-raises it, the error propagates unchanged
out of `process`, and no message is written to the outbound stream for
this inbound message. -/
theorem c7_undeclared_fault (svc : Service) (handler : Handler) (api : String)
    (seqid : Nat) (argWire : List (String × FieldVal)) (e : ErrObj)
    (hapi : api ∈ svc.thrift_services)
    (hh : handler api (readFields (initFields (svc.argSpec api)) argWire) =
      .error e)
    (hnm : ∀ ks ∈ svc.resultSpec api, slotMatches e ks.2 = false) :
    process svc handler api seqid argWire = .propagate e ∧
    (process svc handler api seqid argWire).writeCount = 0 := by
  have hpin : process_in svc api seqid argWire =
      ⟨api, seqid, .dispatch (initResult (svc.resultSpec api))
        (readFields (initFields (svc.argSpec api)) argWire),
        [.readStruct, .readMessageEnd]⟩ := by
    unfold process_in
    rw [if_pos hapi]
  have hmain : process svc handler api seqid argWire = .propagate e := by
    simp only [process, hpin]
    rw [hh]
    show (match handle_exception e (initResult (svc.resultSpec api)) with
      | some r => Outcome.reply api seqid r
      | none => Outcome.propagate e) = Outcome.propagate e
    rw [handle_exception_none e (initResult (svc.resultSpec api)) hnm]
  exact ⟨hmain, by rw [hmain]; rfl⟩

/-- Witness for C7: a non-void method whose handler raises an error of a
class declared in no slot; the error propagates. -/
theorem c7_undeclared_fault_witness :
    ("add" ∈ calcService.thrift_services) ∧
    process calcService plainHandler "add" 3 [] = .propagate plainErr :=
  ⟨by decide,
   (c7_undeclared_fault calcService plainHandler "add" 3 [] plainErr
     (by decide) rfl (by decide)).1⟩

/-! ## Claim C9: structural payload equality -/

theorem dictEq_symm (d1 d2 : Dict) : dictEq d1 d2 = dictEq d2 d1 := by
  unfold dictEq
  rw [Bool.and_comm]

theorem pyEq_false_of_ne (a b : TPayloadObj) (hc : ¬ a.cls = b.cls)
    (hanti : a.cls ∈ b.ancestors → b.cls ∈ a.ancestors → a.cls = b.cls) :
    pyEq a b = false := by
  unfold pyEq
  by_cases hba : pySubclass b a = true
  · rw [if_pos ⟨hc, hba⟩]
    unfold eqMethod
    have hmem : a.cls ∈ b.ancestors := by
      simpa [pySubclass] using hba
    have hni : pyIsinstance a b.cls = false := by
      simp only [pyIsinstance, List.contains, List.elem_eq_mem, decide_eq_false_iff_not]
      exact fun hin => hc (hanti hmem hin)
    rw [hni, Bool.false_and]
  · rw [if_neg (fun hcon => hba hcon.2)]
    unfold eqMethod
    have hni : pyIsinstance b a.cls = false := by
      simp only [pyIsinstance, List.contains, List.elem_eq_mem, decide_eq_false_iff_not]
      intro hin
      exact hba (by simpa [pySubclass] using hin)
    rw [hni, Bool.false_and]

/-- C9: the Python operator `a == b` on two payload instances is
structural — it is true exactly when the two instances have the same
concrete class and their field dicts agree as mappings — and it is
symmetric, including between an instance of a class and an instance of a
subclass (the interpreter's reflected-first dispatch makes the
subclass's method decide both directions). The hypotheses state that the
two objects come from a real class hierarchy: each class is among its
own ancestors, and mutual subclassing implies identity. -/
theorem c9_payload_eq_structural (a b : TPayloadObj)
    (ha : a.cls ∈ a.ancestors) (hb : b.cls ∈ b.ancestors)
    (hanti : a.cls ∈ b.ancestors → b.cls ∈ a.ancestors → a.cls = b.cls) :
    (pyEq a b = true ↔ (a.cls = b.cls ∧ dictEq a.dict b.dict = true)) ∧
    pyEq a b = pyEq b a := by
  by_cases hc : a.cls = b.cls
  · have h1 : pyEq a b = dictEq a.dict b.dict := by
      unfold pyEq
      rw [if_neg (fun hcon => hcon.1 hc)]
      unfold eqMethod
      have hpi : pyIsinstance b a.cls = true := by
        simp only [pyIsinstance, List.contains, List.elem_eq_mem, decide_eq_true_eq]
        rw [hc]; exact hb
      rw [hpi, Bool.true_and]
    have h2 : pyEq b a = dictEq b.dict a.dict := by
      unfold pyEq
      rw [if_neg (fun hcon => hcon.1 hc.symm)]
      unfold eqMethod
      have hpi : pyIsinstance a b.cls = true := by
        simp only [pyIsinstance, List.contains, List.elem_eq_mem, decide_eq_true_eq]
        rw [← hc]; exact ha
      rw [hpi, Bool.true_and]
    constructor
    · rw [h1]
      exact ⟨fun hd => ⟨hc, hd⟩, fun hd => hd.2⟩
    · rw [h1, h2, dictEq_symm]
  · have h1 : pyEq a b = false := pyEq_false_of_ne a b hc hanti
    have h2 : pyEq b a = false :=
      pyEq_false_of_ne b a (fun h => hc h.symm)
        (fun h1 h2 => (hanti h2 h1).symm)
    constructor
    · rw [h1]
      constructor
      · intro hfalse; exact absurd hfalse (by simp)
      · intro hd; exact absurd hd.1 hc
    · rw [h1, h2]

/-! ## Claim C3: MISSING_RESULT characterization -/

theorem recv_reply_unfold (wx : TApplicationException) (r : ResultObj) :
    recv TMessageType.REPLY wx r =
      (match (dictLookup r.fields "success").bind (fun v => v) with
      | some v => RecvOutcome.ret (some v)
      | none =>
        if r.thrift_spec.length = 0 then RecvOutcome.ret none
        else
          match r.fields.find? (fun kv => kv.1 ≠ "success" ∧ kv.2 ≠ none) with
          | some kv => RecvOutcome.raiseSlot (kv.2.getD (.val 0))
          | none =>
            if hasAttr r.fields "success" then
              RecvOutcome.raiseApp (TApplicationException.mkType
                TApplicationException.MISSING_RESULT)
            else RecvOutcome.ret none) := by
  unfold recv
  rw [if_neg (show ¬ TMessageType.REPLY = TMessageType.EXCEPTION by decide)]

/-- C3: on a REPLY, the client raises MISSING_RESULT exactly when the
deserialized result declares a success slot whose value is absent and no
other (declared-exception) slot carries a value; and a void method with
an entirely empty response schema returns no value — in particular it
never raises MISSING_RESULT. -/
theorem c3_missing_result (spec : Spec) (wire : List (String × FieldVal))
    (wx : TApplicationException) :
    (recv TMessageType.REPLY wx (deserializeResult spec wire) =
        .raiseApp (TApplicationException.mkType
          TApplicationException.MISSING_RESULT) ↔
      (declaresSuccess spec = true ∧ finalVal wire "success" = none ∧
        ∀ ks ∈ spec, ks.2.name ≠ "success" → finalVal wire ks.2.name = none)) ∧
    recv TMessageType.REPLY wx (deserializeResult [] wire) = .ret none := by
  have hnil : deserializeResult ([] : Spec) wire = initResult [] := by
    unfold deserializeResult initResult
    have : readFields (initFields ([] : Spec)) wire = initFields [] := by
      rw [readFields_map]; rfl
    rw [this]
  constructor
  · rw [recv_reply_unfold]
    have hsp : (deserializeResult spec wire).thrift_spec = spec := rfl
    rw [hsp]
    simp only [hasAttr, dictLookup]
    simp only [deserializeResult_fields, entry_lookup, entry_scan]
    rw [declaresSuccess_eq_isSome]
    cases hs : (sortSpec spec).find? (fun ks => ks.2.name = "success") with
    | none =>
      simp only [Option.map_none', Option.none_bind, Option.isSome_none,
        Bool.false_eq_true, false_and, iff_false]
      by_cases h0 : spec.length = 0
      · rw [if_pos h0]
        simp
      · rw [if_neg h0]
        cases hscan : (sortSpec spec).find? (fun ks =>
            ks.2.name ≠ "success" ∧ finalVal wire ks.2.name ≠ none) <;>
          simp
    | some ks0 =>
      have hname : ks0.2.name = "success" := by
        simpa using List.find?_some hs
      have hmem0 : ks0 ∈ spec :=
        (sortSpec_perm spec).mem_iff.mp (List.mem_of_find?_eq_some hs)
      have hne : ¬ spec.length = 0 := by
        intro h0
        rw [List.length_eq_zero] at h0
        subst h0
        exact absurd hmem0 (List.not_mem_nil ks0)
      simp only [hs, Option.map_some', hname]
      cases hv : finalVal wire "success" with
      | some v =>
        simp only [Option.some_bind, Option.isSome_some, true_and]
        constructor
        · intro habs
          exact absurd habs (by simp)
        · rintro ⟨habs, _⟩
          exact absurd habs (by simp)
      | none =>
        simp only [Option.some_bind]
        rw [if_neg hne]
        cases hscan : (sortSpec spec).find? (fun ks =>
            ks.2.name ≠ "success" ∧ finalVal wire ks.2.name ≠ none) with
        | some kv =>
          have hkv := List.find?_some hscan
          simp only [ne_eq, decide_eq_true_eq] at hkv
          have hkvmem : kv ∈ spec :=
            (sortSpec_perm spec).mem_iff.mp (List.mem_of_find?_eq_some hscan)
          simp only [Option.map_some']
          constructor
          · intro habs
            exact absurd habs (by simp)
          · rintro ⟨_, _, hE⟩
            exact absurd (hE kv hkvmem hkv.1) hkv.2
        | none =>
          simp only [Option.map_none', Option.isSome_some, if_true]
          exact iff_of_true trivial
            ⟨trivial, trivial, (scan_none_iff spec wire).mp hscan⟩
  · rw [hnil]
    rfl

/-- Witness for C3 at a concrete non-void schema whose wire reply sets no
field: the call fails with MISSING_RESULT, and both sides of the
characterization hold. -/
theorem c3_missing_result_witness :
    (recv TMessageType.REPLY ⟨0, none⟩ (deserializeResult addResultSpec []) =
        .raiseApp (TApplicationException.mkType
          TApplicationException.MISSING_RESULT) ↔
      (declaresSuccess addResultSpec = true ∧ finalVal [] "success" = none ∧
        ∀ ks ∈ addResultSpec, ks.2.name ≠ "success" →
          finalVal [] ks.2.name = none)) ∧
    recv TMessageType.REPLY ⟨0, none⟩ (deserializeResult [] []) = .ret none :=
  c3_missing_result addResultSpec [] ⟨0, none⟩

/-! ## Claim C5: first present declared-exception slot is raised -/

/-- C5: when the deserialized result has no present success value (the
success slot, if declared, is absent) and some declared-exception slot
is present, `_recv` scans the result's attributes in `__dict__`
insertion order — the schema order, ascending field id — and raises the
value of the present non-success slot with the smallest field id, never
the success slot. -/
theorem c5_first_exc_raised (spec : Spec) (wire : List (String × FieldVal))
    (wx : TApplicationException) (k : Nat) (s : Slot) (v : FieldVal)
    (hids : (spec.map Prod.fst).Nodup)
    (hsucc : ∀ ks ∈ spec, ks.2.name = "success" →
      finalVal wire ks.2.name = none)
    (hk : (k, s) ∈ spec) (hname : s.name ≠ "success")
    (hv : finalVal wire s.name = some v)
    (hmin : ∀ ks ∈ spec, ks.2.name ≠ "success" →
      finalVal wire ks.2.name ≠ none → k ≤ ks.1) :
    recv TMessageType.REPLY wx (deserializeResult spec wire) =
      .raiseSlot v := by
  rw [recv_reply_unfold]
  have hsp : (deserializeResult spec wire).thrift_spec = spec := rfl
  rw [hsp]
  simp only [hasAttr, dictLookup]
  simp only [deserializeResult_fields, entry_lookup, entry_scan]
  have hne : ¬ spec.length = 0 := by
    intro h0
    rw [List.length_eq_zero] at h0
    subst h0
    exact absurd hk (List.not_mem_nil _)
  have hfind : (sortSpec spec).find? (fun ks =>
      ks.2.name ≠ "success" ∧ finalVal wire ks.2.name ≠ none) = some (k, s) := by
    apply find?_min_key _ (sortSpec spec) (sortSpec_sorted spec)
      (sortSpec_ids_nodup spec hids)
    · exact (sortSpec_perm spec).mem_iff.mpr hk
    · simp [hname, hv]
    · intro x hx hpx
      simp only [ne_eq, decide_eq_true_eq] at hpx
      exact hmin x ((sortSpec_perm spec).mem_iff.mp hx) hpx.1 hpx.2
  cases hs : (sortSpec spec).find? (fun ks => ks.2.name = "success") with
  | none =>
    simp only [hs, Option.map_none', Option.none_bind]
    rw [if_neg hne]
    simp only [hfind, Option.map_some']
    show RecvOutcome.raiseSlot ((finalVal wire s.name).getD (FieldVal.val 0)) =
      RecvOutcome.raiseSlot v
    rw [hv]
    rfl
  | some ks0 =>
    have hname0 : ks0.2.name = "success" := by
      simpa using List.find?_some hs
    have hsv : finalVal wire ks0.2.name = none :=
      hsucc ks0 ((sortSpec_perm spec).mem_iff.mp
        (List.mem_of_find?_eq_some hs)) hname0
    simp only [hs, Option.map_some', hsv, Option.some_bind]
    rw [if_neg hne]
    simp only [hfind, Option.map_some']
    show RecvOutcome.raiseSlot ((finalVal wire s.name).getD (FieldVal.val 0)) =
      RecvOutcome.raiseSlot v
    rw [hv]
    rfl

/-- Witness for C5: a reply for the non-void schema carrying only the
second exception slot; the client raises that slot's value. -/
theorem c5_first_exc_raised_witness :
    ((addResultSpec.map Prod.fst).Nodup) ∧
    recv TMessageType.REPLY ⟨0, none⟩
        (deserializeResult addResultSpec [("e2", .err dbzErr)]) =
      .raiseSlot (.err dbzErr) :=
  ⟨by decide,
   c5_first_exc_raised addResultSpec [("e2", .err dbzErr)] ⟨0, none⟩
     2 ⟨12, "e2", some 21⟩ (.err dbzErr) (by decide) (by decide) (by decide)
     (by decide) (by decide) (by decide)⟩

/-- Witness for C9 at a base-class instance and a subclass instance with
identical field dicts: the operator is false in both directions (the
classes differ), and symmetric. -/
theorem c9_payload_eq_structural_witness :
    (basePayload.cls ∈ basePayload.ancestors) ∧
    (subPayload.cls ∈ subPayload.ancestors) ∧
    ((pyEq basePayload subPayload = true ↔
      (basePayload.cls = subPayload.cls ∧
        dictEq basePayload.dict subPayload.dict = true)) ∧
      pyEq basePayload subPayload = pyEq subPayload basePayload) :=
  ⟨by decide, by decide,
   c9_payload_eq_structural basePayload subPayload (by decide) (by decide)
     (by decide)⟩

/-! ## Claim C8: argument binding -/

theorem zip_map_fst_sublist {α β : Type} :
    ∀ (l : List α) (a : List β), (((l.zip a).map Prod.fst)).Sublist l
  | [], _ => by simp
  | _ :: _, [] => by simp
  | x :: l, y :: a => by
    rw [List.zip_cons_cons, List.map_cons]
    exact (zip_map_fst_sublist l a).cons₂ x

theorem kwUpdate_nodup (u : List (String × FieldVal)) :
    ∀ d : List (String × FieldVal), ((d.map Prod.fst)).Nodup →
      (((kwUpdate d u).map Prod.fst)).Nodup := by
  induction u with
  | nil => intro d h; exact h
  | cons x u ih =>
    intro d h
    exact ih (kwSet d x.1 x.2) (assocSet_nodup d x.1 x.2 h)

/-- C8 counterexample: argument binding is not validated. Supplying field
"a" both positionally and by name is silently accepted (the positional
value overwrites the named one), a third positional argument against a
two-field schema is silently dropped by `zip`, an unknown argument name
is silently set on the args object and then silently omitted from the
wire, and in every case the CALL payload is still produced — no caller
error is signalled anywhere. -/
theorem c8_binding_not_checked :
    reqKwargs addArgSpec [.val 5] [("a", .val 7)] = [("a", .val 5)] ∧
    args2kwargs addArgSpec [.val 5, .val 6, .val 7] =
      [("a", .val 5), ("b", .val 6)] ∧
    callWirePairs addArgSpec [.val 5] [("a", .val 7)] = [("a", .val 5)] ∧
    callWirePairs addArgSpec [] [("z", .val 9)] = [] := by
  decide

/-- C8 (amended): positional arguments are bound to the request schema's
field names in ascending-field-id order and merged into the named
arguments with positional values silently overwriting named duplicates
(excess positional values and unknown names are silently accepted, not a
checked caller error), and the CALL payload carries exactly the merged
bindings of the schema's fields: a schema field is written with its
merged value and nothing outside the schema is written. -/
theorem c8_binding_amended (spec : Spec) (args : List FieldVal)
    (kwargs : List (String × FieldVal))
    (hnames : (sortedNames spec).Nodup)
    (hkw : ((kwargs.map Prod.fst)).Nodup) :
    (∀ n, kwLookup (reqKwargs spec args kwargs) n =
      (match kwLookup (args2kwargs spec args) n with
        | some v => some v
        | none => kwLookup kwargs n)) ∧
    callWirePairs spec args kwargs =
      (sortSpec spec).filterMap (fun ks =>
        (kwLookup (reqKwargs spec args kwargs) ks.2.name).map
          (fun v => (ks.2.name, v))) ∧
    ((sortSpec spec).map Prod.fst).Sorted (fun a b => a ≤ b) := by
  have hu : ((args2kwargs spec args).map Prod.fst).Nodup :=
    List.Nodup.sublist (zip_map_fst_sublist (sortedNames spec) args) hnames
  have hmerged : ((reqKwargs spec args kwargs).map Prod.fst).Nodup :=
    kwUpdate_nodup (args2kwargs spec args) kwargs hkw
  refine ⟨?_, ?_, ?_⟩
  · intro n
    exact kwUpdate_lookup (args2kwargs spec args) hu kwargs n
  · unfold callWirePairs writeStruct
    apply List.filterMap_congr
    intro ks hks
    have hd := sendArgsDict_lookup spec (reqKwargs spec args kwargs) hmerged
      ks.2.name
    cases hkl : kwLookup (reqKwargs spec args kwargs) ks.2.name with
    | some v =>
      rw [hkl] at hd
      rw [hd]
      rfl
    | none =>
      rw [hkl] at hd
      rw [hd, initFields_lookup]
      have hsome : ((sortSpec spec).find?
          (fun x => x.2.name = ks.2.name)).isSome :=
        List.find?_isSome.mpr ⟨ks, hks, decide_eq_true rfl⟩
      obtain ⟨x, hfind⟩ := Option.isSome_iff_exists.mp hsome
      rw [hfind]
      rfl
  · exact List.Pairwise.map Prod.fst (fun a b h => h) (sortSpec_sorted spec)

/-- Witness for the amended C8 at a concrete schema, positional list and
keyword dict (with a duplicate binding for "a"). -/
theorem c8_binding_amended_witness :
    ((sortedNames addArgSpec).Nodup) ∧
    ((([("a", FieldVal.val 7)].map Prod.fst) : List String).Nodup) ∧
    ((∀ n, kwLookup (reqKwargs addArgSpec [.val 5] [("a", .val 7)]) n =
      (match kwLookup (args2kwargs addArgSpec [.val 5]) n with
        | some v => some v
        | none => kwLookup [("a", .val 7)] n)) ∧
    callWirePairs addArgSpec [.val 5] [("a", .val 7)] =
      (sortSpec addArgSpec).filterMap (fun ks =>
        (kwLookup (reqKwargs addArgSpec [.val 5] [("a", .val 7)]) ks.2.name).map
          (fun v => (ks.2.name, v))) ∧
    ((sortSpec addArgSpec).map Prod.fst).Sorted (fun a b => a ≤ b)) :=
  ⟨by decide, by decide,
   c8_binding_amended addArgSpec [.val 5] [("a", .val 7)] (by decide)
     (by decide)⟩

end Thriftpy
